import Mathlib

/-!
Shallow embedding of the chess bitboard module (`chess.py`): board geometry
constant tables, the `Square` value type (legality, rank/file extraction,
SAN encode/decode) and the `Piece` value type (symbol encode/decode).
Python integers are modelled as `Nat` (all masks in the module are
non-negative), Python strings as Lean `String`, and the two exception
classes as an error type returned through `Except`.
-/

namespace Chess

/-- Embeds `EMPTY = 0`. -/
def EMPTY : Nat := 0

/-- Embeds `BOARD_MASK = 0xffffffffffffffff`. -/
def BOARD_MASK : Nat := 0xffffffffffffffff

/-- Embeds `RANKS = [0xff << i for i in range(0, 64, 8)]`. -/
def RANKS : List Nat := (List.range 8).map fun i => 0xff <<< (8 * i)

/-- Embeds `RANK_SAN = ['1', ..., '8']` (Python one-character strings). -/
def RANK_SAN : List String := ["1", "2", "3", "4", "5", "6", "7", "8"]

/-- Embeds `FILES = [0x0101010101010101 << i for i in range(8)]`. -/
def FILES : List Nat := (List.range 8).map fun i => 0x0101010101010101 <<< i

/-- Embeds `FILE_SAN = ['a', ..., 'h']`. -/
def FILE_SAN : List String := ["a", "b", "c", "d", "e", "f", "g", "h"]

/-- Embeds `SQUARES = [1 << i for i in range(64)]`. -/
def SQUARES : List Nat := (List.range 64).map fun i => 1 <<< i

/-- Embeds `SQUARE_SAN = [file + rank for rank in RANK_SAN for file in FILE_SAN]`
(outer loop over ranks, inner loop over files). -/
def SQUARE_SAN : List String :=
  RANK_SAN.flatMap fun rank => FILE_SAN.map fun file => file ++ rank

/-- Embeds `PIECES = [PAWN, KNIGHT, BISHOP, ROOK, QUEEN, KING] = [1, 2, 3, 4, 5, 6]`. -/
def PAWN : Nat := 1

def KNIGHT : Nat := 2

def BISHOP : Nat := 3

def ROOK : Nat := 4

def QUEEN : Nat := 5

def KING : Nat := 6

def PIECES : List Nat := [PAWN, KNIGHT, BISHOP, ROOK, QUEEN, KING]

/-- Embeds `PIECE_SYMBOLS = ['p', 'n', 'b', 'r', 'q', 'k']`. -/
def PIECE_SYMBOLS : List String := ["p", "n", "b", "r", "q", "k"]

/-- Embeds `COLORS = [WHITE, BLACK] = [1, 2]`. -/
def WHITE : Nat := 1

def BLACK : Nat := 2

def COLORS : List Nat := [WHITE, BLACK]

/-- Embeds the module's two exception classes `SanError` and `FenError`
(both subclasses of `ValueError`); the message strings are abstracted. -/
inductive ChessError where
  | sanError : ChessError
  | fenError : ChessError
deriving DecidableEq

instance {ε α : Type} [DecidableEq ε] [DecidableEq α] : DecidableEq (Except ε α) := fun a b =>
  match a, b with
  | .ok x, .ok y =>
      if h : x = y then .isTrue (by rw [h]) else .isFalse fun hc => h (Except.ok.inj hc)
  | .ok _, .error _ => .isFalse fun hc => Except.noConfusion hc
  | .error _, .ok _ => .isFalse fun hc => Except.noConfusion hc
  | .error x, .error y =>
      if h : x = y then .isTrue (by rw [h]) else .isFalse fun hc => h (Except.error.inj hc)

/-- Embeds `class Square`: wraps one board mask (`self.mask`). -/
structure Square where
  mask : Nat
deriving DecidableEq

/-- Embeds `Square.is_legal`: `return self.mask in SQUARES`. -/
def Square.is_legal (s : Square) : Bool :=
  decide (s.mask ∈ SQUARES)

/-- Embeds `Square.to_rank`:
`return next((rank for rank in RANKS if self.mask & rank), EMPTY)`. -/
def Square.to_rank (s : Square) : Nat :=
  (RANKS.find? fun rank => s.mask &&& rank != 0).getD EMPTY

/-- Embeds `Square.to_file`:
`return next((file for file in FILES if self.mask & file), EMPTY)`. -/
def Square.to_file (s : Square) : Nat :=
  (FILES.find? fun file => s.mask &&& file != 0).getD EMPTY

/-- Embeds `Square.to_san`: returns `''` when `not self.is_legal()`, otherwise
`SQUARE_SAN[SQUARES.index(self.mask)]` (the index is in range there, so the
`getD` default is never taken). -/
def Square.to_san (s : Square) : String :=
  if s.is_legal then SQUARE_SAN.getD (SQUARES.indexOf s.mask) "" else ""

/-- Embeds `Square.from_san`: raises `SanError` when `san not in SQUARE_SAN`,
otherwise returns `Square(SQUARES[SQUARE_SAN.index(san)])`. -/
def Square.from_san (san : String) : Except ChessError Square :=
  if san ∈ SQUARE_SAN then
    .ok ⟨SQUARES.getD (SQUARE_SAN.indexOf san) EMPTY⟩
  else
    .error .sanError

/-- Embeds `class Piece`: wraps a piece-type number and a color number. -/
structure Piece where
  piece : Nat
  color : Nat
deriving DecidableEq

/-- Embeds Python `str.upper()` on ASCII text: uppercase every character. -/
def pyUpper (s : String) : String := String.mk (s.data.map Char.toUpper)

/-- Embeds Python `str.lower()` on ASCII text: lowercase every character. -/
def pyLower (s : String) : String := String.mk (s.data.map Char.toLower)

/-- Embeds Python `str.isupper()` on ASCII text: true when the string has at
least one cased character and no cased character is lowercase. -/
def pyIsUpper (s : String) : Bool :=
  s.data.any Char.isAlpha && s.data.all fun c => !c.isAlpha || c.isUpper

/-- Embeds `Piece.to_symbol`: returns `''` when the piece number is not in
`PIECES` or the color number is not in `COLORS`; otherwise looks up the
symbol at the piece's index and uppercases it for White. -/
def Piece.to_symbol (p : Piece) : String :=
  if p.piece ∈ PIECES ∧ p.color ∈ COLORS then
    let symbol := PIECE_SYMBOLS.getD (PIECES.indexOf p.piece) ""
    if p.color == WHITE then pyUpper symbol else symbol
  else ""

/-- Embeds `Piece.from_symbol`: lowercases the input, raises `FenError` when
the result is not in `PIECE_SYMBOLS`, otherwise returns the piece whose
number sits at the symbol's index, colored White exactly when
`symbol.isupper()`. -/
def Piece.from_symbol (symbol : String) : Except ChessError Piece :=
  let lower_symbol := pyLower symbol
  if lower_symbol ∈ PIECE_SYMBOLS then
    let piece := PIECES.getD (PIECE_SYMBOLS.indexOf lower_symbol) 0
    let color := if pyIsUpper symbol then WHITE else BLACK
    .ok ⟨piece, color⟩
  else
    .error .fenError

/-- Spec-side list of the eight file letters, lowercase, in board order. -/
def fileLetters : List Char := ['a', 'b', 'c', 'd', 'e', 'f', 'g', 'h']

/-- Spec-side list of the eight rank digits in board order. -/
def rankDigits : List Char := ['1', '2', '3', '4', '5', '6', '7', '8']

/-- Spec-side map from a piece-letter string to the kind number the spec
pairs with it (p, n, b, r, q, k); any other string maps to 0. -/
def symbolKind (s : String) : Nat :=
  if s = "p" then PAWN
  else if s = "n" then KNIGHT
  else if s = "b" then BISHOP
  else if s = "r" then ROOK
  else if s = "q" then QUEEN
  else if s = "k" then KING
  else 0

/-- Spec-side map from a kind number to its canonical lowercase letter. -/
def kindLetter (k : Nat) : String :=
  if k = PAWN then "p"
  else if k = KNIGHT then "n"
  else if k = BISHOP then "b"
  else if k = ROOK then "r"
  else if k = QUEEN then "q"
  else if k = KING then "k"
  else ""

lemma mem_squares_iff (m : Nat) : m ∈ SQUARES ↔ ∃ i < 64, m = 2 ^ i := by
  unfold SQUARES
  simp only [List.mem_map, List.mem_range, Nat.shiftLeft_eq, one_mul]
  constructor
  · rintro ⟨i, hi, rfl⟩
    exact ⟨i, hi, rfl⟩
  · rintro ⟨i, hi, rfl⟩
    exact ⟨i, hi, rfl⟩

lemma is_legal_iff (s : Square) : s.is_legal = true ↔ s.mask ∈ SQUARES := by
  simp [Square.is_legal]

lemma to_san_of_not_legal (s : Square) (h : s.is_legal = false) : s.to_san = "" := by
  simp [Square.to_san, h]

lemma square_san_shape : ∀ s ∈ SQUARE_SAN,
    s.length = 2 ∧ s.data.getD 0 ' ' ∈ fileLetters ∧ s.data.getD 1 ' ' ∈ rankDigits := by
  decide

lemma file_san_of_letter {c : Char} (h : c ∈ fileLetters) : String.mk [c] ∈ FILE_SAN := by
  fin_cases h <;> decide

lemma rank_san_of_digit {c : Char} (h : c ∈ rankDigits) : String.mk [c] ∈ RANK_SAN := by
  fin_cases h <;> decide

lemma mem_square_san_iff (s : String) :
    s ∈ SQUARE_SAN ↔
      s.length = 2 ∧ s.data.getD 0 ' ' ∈ fileLetters ∧ s.data.getD 1 ' ' ∈ rankDigits := by
  constructor
  · exact square_san_shape s
  · rintro ⟨hlen, hf, hr⟩
    obtain ⟨l⟩ := s
    obtain ⟨c1, c2, rfl⟩ := List.length_eq_two.mp hlen
    unfold SQUARE_SAN
    rw [List.mem_flatMap]
    refine ⟨String.mk [c2], rank_san_of_digit hr, List.mem_map.mpr ?_⟩
    exact ⟨String.mk [c1], file_san_of_letter hf, rfl⟩

lemma from_san_mask {s : String} {sq : Square} (h : Square.from_san s = .ok sq) :
    sq.mask ∈ SQUARES := by
  unfold Square.from_san at h
  by_cases hm : s ∈ SQUARE_SAN
  · rw [if_pos hm] at h
    have he := Except.ok.inj h
    have hlt : SQUARE_SAN.indexOf s < SQUARE_SAN.length := List.indexOf_lt_length.mpr hm
    have hlt64 : SQUARE_SAN.indexOf s < SQUARES.length := by
      have h64 : SQUARE_SAN.length = SQUARES.length := by decide
      omega
    rw [← he]
    rw [List.getD_eq_getElem SQUARES EMPTY hlt64]
    exact List.getElem_mem hlt64
  · rw [if_neg hm] at h
    exact absurd h (by simp)

lemma legal_mask_props : ∀ m ∈ SQUARES,
    (Square.mk m).is_legal = true ∧ (Square.mk m).to_san.length = 2 := by
  decide

/-- C3: for every one of the 64 legal single-bit square masks `m`, parsing the
SAN text of `Square(m)` with `Square.from_san` returns a Square whose mask
equals `m`. -/
theorem square_san_roundtrip :
    ∀ m ∈ SQUARES, Square.from_san ((Square.mk m).to_san) = .ok (Square.mk m) := by
  decide

/-- Witness for C3 at the concrete mask `1 <<< 28` (the square e4). -/
theorem square_san_roundtrip_witness :
    Square.from_san ((Square.mk (1 <<< 28)).to_san) = .ok (Square.mk (1 <<< 28)) :=
  square_san_roundtrip (1 <<< 28) (by decide)

/-- C4: `Square.is_legal` returns true exactly when the wrapped mask is one of
the 64 single-bit square positions, i.e. exactly when it equals `2 ^ i` for
some `i < 64`; zero masks, multi-bit masks and any other value are rejected. -/
theorem is_legal_exact_membership (m : Nat) :
    (Square.mk m).is_legal = true ↔ ∃ i < 64, m = 2 ^ i := by
  rw [is_legal_iff]
  exact mem_squares_iff m

/-- C6: for every kind in the 6 defined piece kinds and color in the 2 defined
colors, converting the piece to its symbol and parsing it back yields a piece
with the identical kind and color. -/
theorem piece_symbol_roundtrip :
    ∀ k ∈ PIECES, ∀ c ∈ COLORS,
      Piece.from_symbol ((Piece.mk k c).to_symbol) = .ok (Piece.mk k c) := by
  decide

/-- Witness for C6 at the concrete pair (QUEEN, WHITE). -/
theorem piece_symbol_roundtrip_witness :
    Piece.from_symbol ((Piece.mk QUEEN WHITE).to_symbol) = .ok (Piece.mk QUEEN WHITE) :=
  piece_symbol_roundtrip QUEEN (by decide) WHITE (by decide)

/-- C9: the square table has 64 entries with entry `i` equal to `1 <<< i`; the
rank and file tables each have exactly 8 entries, given by the documented
shift formulas and strictly ascending; and the SAN table is index-aligned with
the square masks with file varying fastest: entry `i` is the file letter at
`i % 8` followed by the rank digit at `i / 8`. -/
theorem constant_table_alignment :
    SQUARES.length = 64
    ∧ (∀ i : Fin 64, SQUARES.getD i.val 0 = 1 <<< i.val)
    ∧ RANKS.length = 8 ∧ RANK_SAN.length = 8
    ∧ FILES.length = 8 ∧ FILE_SAN.length = 8
    ∧ (∀ i : Fin 8, RANKS.getD i.val 0 = 0xff <<< (8 * i.val))
    ∧ (∀ i : Fin 8, FILES.getD i.val 0 = 0x0101010101010101 <<< i.val)
    ∧ (∀ i : Fin 7, RANKS.getD i.val 0 < RANKS.getD (i.val + 1) 0)
    ∧ (∀ i : Fin 7, FILES.getD i.val 0 < FILES.getD (i.val + 1) 0)
    ∧ SQUARE_SAN.length = 64
    ∧ (∀ i : Fin 64,
        SQUARE_SAN.getD i.val "" = FILE_SAN.getD (i.val % 8) "" ++ RANK_SAN.getD (i.val / 8) "") := by
  decide

/-- C1 fails on the code: the claim predicts that `"A1"` (length 2, first
character case-insensitively a file letter, second a rank digit) parses
without error, but `Square.from_san` compares against the lowercase SAN table
verbatim and raises `SanError` on `"A1"`. -/
theorem from_san_not_case_insensitive :
    ¬(Square.from_san "A1" = .error .sanError ↔
        ¬("A1".length = 2 ∧ ("A1".data.getD 0 ' ').toLower ∈ fileLetters
            ∧ "A1".data.getD 1 ' ' ∈ rankDigits)) := by
  decide

/-- C1 (amended): `Square.from_san` is case-sensitive; for every string `s` it
raises `SanError` exactly when `s`'s length is not 2, or its first character
is not one of the lowercase letters 'a'..'h', or its second character is not
one of '1'..'8'; in particular "", "a", "a1e", "i1" and "a9" each raise
`SanError`. -/
theorem from_san_error_characterization :
    (∀ s : String,
      Square.from_san s = .error .sanError ↔
        ¬(s.length = 2 ∧ s.data.getD 0 ' ' ∈ fileLetters ∧ s.data.getD 1 ' ' ∈ rankDigits))
    ∧ Square.from_san "" = .error .sanError
    ∧ Square.from_san "a" = .error .sanError
    ∧ Square.from_san "a1e" = .error .sanError
    ∧ Square.from_san "i1" = .error .sanError
    ∧ Square.from_san "a9" = .error .sanError := by
  refine ⟨fun s => ?_, by decide, by decide, by decide, by decide, by decide⟩
  rw [← mem_square_san_iff]
  unfold Square.from_san
  by_cases hm : s ∈ SQUARE_SAN
  · simp [hm]
  · simp [hm]

/-- Witness for C1 (amended) at the concrete malformed input "z9". -/
theorem from_san_error_characterization_witness :
    Square.from_san "z9" = .error .sanError :=
  (from_san_error_characterization.1 "z9").mpr (by decide)

/-- C2 fails on the code: mask 3 is illegal (two bits set), yet `to_rank` and
`to_file` return nonzero masks (the first overlapping rank and file constants)
instead of the empty mask the claim predicts. -/
theorem to_rank_nonzero_on_illegal_mask :
    (Square.mk 3).is_legal = false
    ∧ (Square.mk 3).to_rank ≠ EMPTY
    ∧ (Square.mk 3).to_file ≠ EMPTY := by
  decide

/-- C2 (amended): the three derived-property methods are total (never raise);
`to_san` returns `""` for every illegal mask; `to_rank`/`to_file` return the
empty mask exactly when the wrapped mask overlaps no rank/file constant (as
for mask 0), but an illegal mask overlapping the board — such as one with two
bits set — yields the first overlapping rank/file mask instead. -/
theorem derived_property_leniency :
    (∀ m : Nat, (Square.mk m).is_legal = false → (Square.mk m).to_san = "")
    ∧ (∀ m : Nat, (Square.mk m).to_rank = EMPTY ↔ ∀ r ∈ RANKS, m &&& r = 0)
    ∧ (∀ m : Nat, (Square.mk m).to_file = EMPTY ↔ ∀ f ∈ FILES, m &&& f = 0)
    ∧ (Square.mk 0).to_rank = EMPTY
    ∧ (Square.mk 0).to_file = EMPTY
    ∧ (Square.mk 0).to_san = "" := by
  refine ⟨fun m h => to_san_of_not_legal _ h, fun m => ?_, fun m => ?_,
    by decide, by decide, by decide⟩
  · unfold Square.to_rank
    cases hfind : RANKS.find? fun rank => (Square.mk m).mask &&& rank != 0 with
    | none =>
        simp only [Option.getD_none]
        have hall := List.find?_eq_none.mp hfind
        constructor
        · intro _ r hr
          have := hall r hr
          simpa using this
        · intro _
          trivial
    | some r =>
        simp only [Option.getD_some]
        have hp := List.find?_some hfind
        have hmem := List.mem_of_find?_eq_some hfind
        constructor
        · intro hr0
          intro r' hr'
          rw [hr0] at hp
          simp [EMPTY] at hp
        · intro hall
          have := hall r hmem
          rw [this] at hp
          simp at hp
  · unfold Square.to_file
    cases hfind : FILES.find? fun file => (Square.mk m).mask &&& file != 0 with
    | none =>
        simp only [Option.getD_none]
        have hall := List.find?_eq_none.mp hfind
        constructor
        · intro _ f hf
          have := hall f hf
          simpa using this
        · intro _
          trivial
    | some f =>
        simp only [Option.getD_some]
        have hp := List.find?_some hfind
        have hmem := List.mem_of_find?_eq_some hfind
        constructor
        · intro hf0
          intro f' hf'
          rw [hf0] at hp
          simp [EMPTY] at hp
        · intro hall
          have := hall f hmem
          rw [this] at hp
          simp at hp

/-- Witness for C2 (amended) at the concrete illegal mask 3. -/
theorem derived_property_leniency_witness :
    (Square.mk 3).to_san = "" :=
  derived_property_leniency.1 3 (by decide)

lemma pyLower_singleton (c : Char) : pyLower (String.mk [c]) = String.mk [c.toLower] := rfl

lemma pyIsUpper_singleton (c : Char) : pyIsUpper (String.mk [c]) = c.isUpper := by
  simp only [pyIsUpper, List.any_cons, List.any_nil, List.all_cons, List.all_nil,
    Bool.or_false, Bool.and_true, Char.isAlpha]
  cases hu : c.isUpper <;> cases hl : c.isLower <;> simp [hu, hl]

lemma from_symbol_of_mem (symbol : String) (h : pyLower symbol ∈ PIECE_SYMBOLS) :
    Piece.from_symbol symbol =
      .ok ⟨PIECES.getD (PIECE_SYMBOLS.indexOf (pyLower symbol)) 0,
           if pyIsUpper symbol then WHITE else BLACK⟩ := by
  simp [Piece.from_symbol, h]

lemma from_symbol_of_not_mem (symbol : String) (h : pyLower symbol ∉ PIECE_SYMBOLS) :
    Piece.from_symbol symbol = .error .fenError := by
  simp [Piece.from_symbol, h]

lemma symbolKind_agrees : ∀ s ∈ PIECE_SYMBOLS,
    PIECES.getD (PIECE_SYMBOLS.indexOf s) 0 = symbolKind s := by
  decide

/-- C5: `to_san` returns `""` for every mask outside the 64 legal positions and
otherwise the SAN string at the mask's index in the parallel table;
concretely, `from_san "e4"` yields the mask `1 <<< 28` and
`Square(1 <<< 28).to_san()` is `"e4"`. -/
theorem to_san_table_lookup :
    (∀ m : Nat, (Square.mk m).is_legal = false → (Square.mk m).to_san = "")
    ∧ (∀ m : Nat, (Square.mk m).is_legal = true →
        (Square.mk m).to_san = SQUARE_SAN.getD (SQUARES.indexOf m) "")
    ∧ Square.from_san "e4" = .ok (Square.mk (1 <<< 28))
    ∧ (Square.mk (1 <<< 28)).to_san = "e4" := by
  refine ⟨fun m h => to_san_of_not_legal _ h, fun m h => ?_, by decide, by decide⟩
  simp [Square.to_san, h]

/-- Witness for C5 at the concrete legal mask 1 (the square a1). -/
theorem to_san_table_lookup_witness :
    (Square.mk 1).to_san = SQUARE_SAN.getD (SQUARES.indexOf 1) "" :=
  to_san_table_lookup.2.1 1 (by decide)

/-- C7: `Piece.from_symbol` on a single character raises `FenError` exactly
when the lowercased character is not one of the six piece letters; on success
the kind is the letter's kind and the color is White for an uppercase input,
Black otherwise; concretely "x" raises `FenError`, "K" yields (King, White)
and "k" yields (King, Black). -/
theorem from_symbol_characterization :
    (∀ c : Char,
      (Piece.from_symbol (String.mk [c]) = .error .fenError ↔
          String.mk [c.toLower] ∉ PIECE_SYMBOLS)
      ∧ (String.mk [c.toLower] ∈ PIECE_SYMBOLS →
          Piece.from_symbol (String.mk [c]) =
            .ok (Piece.mk (symbolKind (String.mk [c.toLower]))
                  (if c.isUpper then WHITE else BLACK))))
    ∧ Piece.from_symbol "x" = .error .fenError
    ∧ Piece.from_symbol "K" = .ok (Piece.mk KING WHITE)
    ∧ Piece.from_symbol "k" = .ok (Piece.mk KING BLACK) := by
  refine ⟨fun c => ⟨⟨fun h hmem => ?_, fun hnot => ?_⟩, fun hmem => ?_⟩,
    by decide, by decide, by decide⟩
  · rw [from_symbol_of_mem _ (by rw [pyLower_singleton]; exact hmem)] at h
    exact Except.noConfusion h
  · exact from_symbol_of_not_mem _ (by rw [pyLower_singleton]; exact hnot)
  · rw [from_symbol_of_mem _ (by rw [pyLower_singleton]; exact hmem)]
    rw [pyLower_singleton, pyIsUpper_singleton]
    rw [symbolKind_agrees _ hmem]

/-- Witness for C7 at the concrete character 'Q'. -/
theorem from_symbol_characterization_witness :
    Piece.from_symbol (String.mk ['Q']) =
      .ok (Piece.mk (symbolKind (String.mk ['Q'.toLower]))
            (if 'Q'.isUpper then WHITE else BLACK)) :=
  ((from_symbol_characterization.1 'Q').2) (by decide)

/-- C8: `to_symbol` returns `""` whenever the stored kind number or color
number is undefined, and otherwise the kind's canonical letter, uppercased
for White and kept lowercase for Black; concretely a White queen prints "Q"
and a Black pawn prints "p". -/
theorem to_symbol_characterization :
    (∀ k c : Nat, ¬(k ∈ PIECES ∧ c ∈ COLORS) → (Piece.mk k c).to_symbol = "")
    ∧ (∀ k ∈ PIECES,
        (Piece.mk k WHITE).to_symbol = pyUpper (kindLetter k)
        ∧ (Piece.mk k BLACK).to_symbol = kindLetter k)
    ∧ (Piece.mk QUEEN WHITE).to_symbol = "Q"
    ∧ (Piece.mk PAWN BLACK).to_symbol = "p" := by
  refine ⟨fun k c h => ?_, by decide, by decide, by decide⟩
  simp [Piece.to_symbol, h]

/-- Witness for C8 at the concrete undefined pair (0, 0). -/
theorem to_symbol_characterization_witness :
    (Piece.mk 0 0).to_symbol = "" :=
  to_symbol_characterization.1 0 0 (by decide)

/-- C10: every Square successfully returned by `from_san` is legal, and its
`to_san` is a non-empty two-character string. -/
theorem from_san_result_legal (s : String) (sq : Square)
    (h : Square.from_san s = .ok sq) :
    sq.is_legal = true ∧ sq.to_san.length = 2 ∧ sq.to_san ≠ "" := by
  have hmem := from_san_mask h
  obtain ⟨h1, h2⟩ := legal_mask_props sq.mask hmem
  have h1' : sq.is_legal = true := h1
  have h2' : sq.to_san.length = 2 := h2
  refine ⟨h1', h2', fun he => ?_⟩
  rw [he] at h2'
  simp at h2'

/-- Witness for C10 at the concrete input "e4". -/
theorem from_san_result_legal_witness :
    (Square.mk (1 <<< 28)).is_legal = true
    ∧ (Square.mk (1 <<< 28)).to_san.length = 2
    ∧ (Square.mk (1 <<< 28)).to_san ≠ "" :=
  from_san_result_legal "e4" (Square.mk (1 <<< 28)) (by decide)

end Chess
